import Mathlib

/-!
Verification development for the progress-notification subsystem of the
monkeypoxtoken backend: an in-memory SSE (server-sent events) registry
(`SSEManager` in `src/middlewares/sse.ts`), its streaming middleware
(`sseMiddleware`), the producer-facing helper (`sendProgressUpdate` in
`src/utils/progress.ts`), and the progress-event traces of the three
request handlers (`createToken`, `deployCollection`, `mintCollectionNFT`).

The registry is a JavaScript `Map<string, SSEClient>`; it is modelled as an
insertion-ordered association list with JS `Map` semantics (`set` replaces
in place keeping the insertion position, `delete` removes, `get` is exact
match, `forEach` iterates in insertion order).  A stream handle (`Response`)
is modelled by a numeric identity; the observable world carries, per handle,
the list of chunks written so far and whether the underlying transport has
failed (peer gone), in which case a write raises.  Exceptions are modelled
by a raised-flag paired with the post-state, since in JavaScript side
effects performed before a throw persist.
-/

namespace MonkeypoxSSE

/-- Status field of a `ProgressUpdate` (`src/utils/progress.ts`):
"started" | "progress" | "completed" | "error". -/
inductive UpdStatus where
  | started
  | progress
  | completed
  | error
deriving DecidableEq, Repr

/-- Type field of a `ProgressUpdate`: "token" | "collection" | "nft". -/
inductive UpdType where
  | token
  | collection
  | nft
deriving DecidableEq, Repr

/-- The `ProgressUpdate` record of `src/utils/progress.ts`: `type`,
`status`, optional `step`, `progress`, `message`, `error`. -/
structure ProgressUpdate where
  type : UpdType
  status : UpdStatus
  step : Option String
  progress : Option Nat
  message : Option String
  error : Option String
deriving DecidableEq, Repr

/-- JSON string-literal body escaping as performed by `JSON.stringify` for
the characters that can occur in this repository's payloads (quote,
backslash, newline, carriage return, tab); other characters are emitted
verbatim. -/
def jsonEscapeChar (c : Char) : String :=
  if c = '"' then "\\\""
  else if c = '\\' then "\\\\"
  else if c = '\n' then "\\n"
  else if c = '\r' then "\\r"
  else if c = '\t' then "\\t"
  else String.singleton c

/-- JSON encoding of a string value: escaped body between double quotes. -/
def jsonString (s : String) : String :=
  "\"" ++ String.join (s.data.map jsonEscapeChar) ++ "\""

/-- Serialized form of the `type` field. -/
def UpdType.str : UpdType → String
  | .token => "token"
  | .collection => "collection"
  | .nft => "nft"

/-- Serialized form of the `status` field. -/
def UpdStatus.str : UpdStatus → String
  | .started => "started"
  | .progress => "progress"
  | .completed => "completed"
  | .error => "error"

/-- A key of an object literal that is only present when the optional field
is, serialized as `,"key":value`; `JSON.stringify` omits `undefined`
fields. -/
def optField (key : String) (enc : String → String) : Option String → String
  | some v => ",\"" ++ key ++ "\":" ++ enc v
  | none => ""

/-- Same for an optional numeric field. -/
def optNatField (key : String) : Option Nat → String
  | some v => ",\"" ++ key ++ "\":" ++ Nat.repr v
  | none => ""

/-- `JSON.stringify` of a `ProgressUpdate`, with keys in the insertion
order used by every object literal passed to `sendProgressUpdate` in the
controllers: `type`, `status`, then whichever of `step`, `progress`,
`message`, `error` are present. -/
def stringifyProgress (u : ProgressUpdate) : String :=
  "\x7b\"type\":" ++ jsonString u.type.str
    ++ ",\"status\":" ++ jsonString u.status.str
    ++ optField "step" jsonString u.step
    ++ optNatField "progress" u.progress
    ++ optField "message" jsonString u.message
    ++ optField "error" jsonString u.error
    ++ "\x7d"

/-- One SSE wire frame: `data: <json>\n\n`
(`src/middlewares/sse.ts`, lines 26, 32 and 59). -/
def sseFrame (json : String) : String :=
  "data: " ++ json ++ "\n\n"

/-- The `SSEClient` interface of `src/middlewares/sse.ts`: an identifier
and a response-stream handle (the handle is modelled by its identity). -/
structure SSEClient where
  id : String
  response : Nat
deriving DecidableEq, Repr

/-- JS `Map.get`: value of the first (and, for a real `Map`, only) entry
with the given key. -/
def mapGet (m : List (String × SSEClient)) (k : String) : Option SSEClient :=
  (m.find? (fun p => p.1 = k)).map (fun p => p.2)

/-- JS `Map.set`: replace in place if the key is present (keeping its
insertion position), otherwise append. -/
def mapSet (m : List (String × SSEClient)) (k : String) (v : SSEClient) :
    List (String × SSEClient) :=
  if m.any (fun p => p.1 = k) then
    m.map (fun p => if p.1 = k then (k, v) else p)
  else
    m ++ [(k, v)]

/-- JS `Map.delete`: remove every entry with the given key. -/
def mapDelete (m : List (String × SSEClient)) (k : String) :
    List (String × SSEClient) :=
  m.filter (fun p => p.1 ≠ k)

/-- The observable world: the manager's `clients` map, and per stream
handle the chunks written so far and whether the underlying transport has
already failed (in which case a write raises). -/
structure World where
  clients : List (String × SSEClient)
  output : Nat → List String
  failed : Nat → Bool

/-- `response.write(chunk)`: on a live handle, append the chunk to that
handle's output; on a failed handle, raise (second component `true`)
leaving the world unchanged. -/
def writeChunk (w : World) (h : Nat) (chunk : String) : World × Bool :=
  if w.failed h then (w, true)
  else
    (⟨w.clients,
      fun h2 => if h2 = h then w.output h2 ++ [chunk] else w.output h2,
      w.failed⟩, false)

/-- `SSEManager.addClient`: `this.clients.set(client.id, client)`. -/
def addClient (w : World) (c : SSEClient) : World :=
  ⟨mapSet w.clients c.id c, w.output, w.failed⟩

/-- `SSEManager.removeClient`: `this.clients.delete(clientId)`. -/
def removeClient (w : World) (clientId : String) : World :=
  ⟨mapDelete w.clients clientId, w.output, w.failed⟩

/-- `SSEManager.sendToClient`: look the client up; if present, write one
framed event to its response (no exception handling around the write);
if absent, do nothing. -/
def sendToClient (w : World) (clientId : String) (data : ProgressUpdate) :
    World × Bool :=
  match mapGet w.clients clientId with
  | some c => writeChunk w c.response (sseFrame (stringifyProgress data))
  | none => (w, false)

/-- The iteration inside `SSEManager.broadcast`: `Map.forEach` visits the
entries in insertion order; a write that raises aborts the iteration and
the exception propagates (no exception handling in the source). -/
def broadcastGo (cs : List (String × SSEClient)) (frame : String)
    (w : World) : World × Bool :=
  match cs with
  | [] => (w, false)
  | (_, c) :: rest =>
    let r := writeChunk w c.response frame
    if r.2 then r else broadcastGo rest frame r.1

/-- `SSEManager.broadcast`: write one framed event to every registered
client, in insertion order. -/
def broadcast (w : World) (data : ProgressUpdate) : World × Bool :=
  broadcastGo w.clients (sseFrame (stringifyProgress data)) w

/-- `sendProgressUpdate` (`src/utils/progress.ts`): delegates to
`sseManager.sendToClient`. -/
def sendProgressUpdate (w : World) (clientId : String)
    (update : ProgressUpdate) : World × Bool :=
  sendToClient w clientId update

/-- `req.params.clientId || Date.now().toString()` in `sseMiddleware`:
JavaScript `||` takes the fallback when the parameter is absent or the
empty string (falsy). -/
def resolveClientId (param : Option String) (now : Nat) : String :=
  match param with
  | some s => if s = "" then Nat.repr now else s
  | none => Nat.repr now

/-- `JSON.stringify(\x7b type: "connected", clientId \x7d)`: the payload of the
initial connection message. -/
def connectedJson (clientId : String) : String :=
  "\x7b\"type\":\"connected\",\"clientId\":" ++ jsonString clientId ++ "\x7d"

/-- One action performed by `sseMiddleware` on the response object, in
program order. -/
inductive ResAction where
  | setHeader (name value : String)
  | flushHeaders
  | write (chunk : String)
deriving DecidableEq, Repr

/-- The sequence of response actions `sseMiddleware` performs on a new
connection: three `setHeader` calls, `flushHeaders`, then the initial
`connected` frame (`src/middlewares/sse.ts`, lines 44-59). -/
def sseMiddlewareTrace (param : Option String) (now : Nat) :
    List ResAction :=
  [ResAction.setHeader "Content-Type" "text/event-stream",
   ResAction.setHeader "Cache-Control" "no-cache",
   ResAction.setHeader "Connection" "keep-alive",
   ResAction.flushHeaders,
   ResAction.write (sseFrame (connectedJson (resolveClientId param now)))]

/-- The registry-state effect of `sseMiddleware` on a new connection with
response handle `res`: resolve the identifier, `addClient`, then write the
initial `connected` frame to `res`. -/
def sseConnect (w : World) (param : Option String) (now : Nat)
    (res : Nat) : World × Bool :=
  let clientId := resolveClientId param now
  let w1 := addClient w ⟨clientId, res⟩
  writeChunk w1 res (sseFrame (connectedJson clientId))

/-- The close handler `sseMiddleware` installs: on the connection's close
event, `sseManager.removeClient(clientId)`. -/
def sseOnClose (w : World) (clientId : String) : World :=
  removeClient w clientId

/-- JavaScript truthiness of an optional string field of a request body
(`!field` guards in the controllers): falsy when absent or empty. -/
def truthy : Option String → Bool
  | some s => s ≠ ""
  | none => false

/-- Fields of the `createToken` request body that its control flow
inspects (`src/controllers/createToken.ts`). -/
structure CreateTokenBody where
  name : Option String
  uri : Option String
  symbol : Option String
  pubKey : Option String
deriving DecidableEq, Repr

/-- Which awaited or throwing SDK step of `createToken` fails, if any:
stage 0 is between the `initialization` and `building` progress events
(Connection/Umi/PublicKey construction), stage 1 between `building` and
`finalizing` (transaction-builder construction), stage 2 after
`finalizing` (blockhash fetch, build, serialize).  Failures there are
caught by the outer catch, which emits a `status:"error"` event. -/
def SdkFail := Option (Fin 3)

/-- Progress-event trace of `createToken` together with the HTTP status
it responds with, as a function of the body's truthy fields and of where
(if anywhere) the SDK work throws.  Mirrors the control flow of
`src/controllers/createToken.ts`: `started` is emitted before the
required-fields check, and the missing-fields branch returns 400 without
emitting any further event. -/
def createToken (b : CreateTokenBody) (fail : SdkFail) (errMsg : String) :
    List ProgressUpdate × Nat :=
  let started : ProgressUpdate :=
    ⟨.token, .started, none, none,
     some "Preparing token creation transaction", none⟩
  if ¬ (truthy b.name ∧ truthy b.uri ∧ truthy b.symbol ∧ truthy b.pubKey) then
    ([started], 400)
  else
    let p40 : ProgressUpdate :=
      ⟨.token, .progress, some "initialization", some 40,
       some "Initializing connection", none⟩
    let p60 : ProgressUpdate :=
      ⟨.token, .progress, some "building", some 60,
       some "Building transaction", none⟩
    let p80 : ProgressUpdate :=
      ⟨.token, .progress, some "finalizing", some 80,
       some "Finalizing transaction", none⟩
    let done : ProgressUpdate :=
      ⟨.token, .completed, none, some 100,
       some "Transaction prepared successfully", none⟩
    let errEvt : ProgressUpdate :=
      ⟨.token, .error, none, none,
       some ("Failed to prepare transaction: " ++ errMsg), none⟩
    match fail with
    | some ⟨0, _⟩ => ([started, p40, errEvt], 500)
    | some ⟨1, _⟩ => ([started, p40, p60, errEvt], 500)
    | some _ => ([started, p40, p60, p80, errEvt], 500)
    | none => ([started, p40, p60, p80, done], 200)

/-- Fields of the `deployCollection` request body that its control flow
inspects (second file of `src/unnamed/part_001`). -/
structure DeployCollectionBody where
  name : Option String
  uri : Option String
  privateKey : Option String
deriving DecidableEq, Repr

/-- Which throwing step of `deployCollection` fails, if any: stage 0 is
the locally caught `getWalletKeypair` (its catch returns 400 with no
progress event), stage 1 throws between the `connection` and
`preparation` events, stage 2 after the `deployment` event (the awaited
`createCollection`); stages 1-2 reach the outer catch, which emits
`status:"error"`. -/
def DeployFail := Option (Fin 3)

/-- Progress-event trace and HTTP status of `deployCollection`.  Mirrors
its control flow: `started` and the `validation` progress event precede
the required-fields check; both the missing-fields branch and the
invalid-private-key branch return 400 without a terminal event. -/
def deployCollection (b : DeployCollectionBody) (fail : DeployFail)
    (errMsg : String) : List ProgressUpdate × Nat :=
  let started : ProgressUpdate :=
    ⟨.collection, .started, none, none,
     some "Starting collection deployment process", none⟩
  let p20 : ProgressUpdate :=
    ⟨.collection, .progress, some "validation", some 20,
     some "Validating input parameters", none⟩
  if ¬ (truthy b.name ∧ truthy b.uri ∧ truthy b.privateKey) then
    ([started, p20], 400)
  else
    let p40 : ProgressUpdate :=
      ⟨.collection, .progress, some "wallet_init", some 40,
       some "Initializing wallet", none⟩
    let p60 : ProgressUpdate :=
      ⟨.collection, .progress, some "connection", some 60,
       some "Setting up blockchain connection", none⟩
    let p70 : ProgressUpdate :=
      ⟨.collection, .progress, some "preparation", some 70,
       some "Preparing collection parameters", none⟩
    let p80 : ProgressUpdate :=
      ⟨.collection, .progress, some "deployment", some 80,
       some "Deploying collection to blockchain", none⟩
    let done : ProgressUpdate :=
      ⟨.collection, .completed, none, some 100,
       some "Collection deployed successfully", none⟩
    let errEvt : ProgressUpdate :=
      ⟨.collection, .error, none, none,
       some ("Collection deployment failed: " ++ errMsg), none⟩
    match fail with
    | some ⟨0, _⟩ => ([started, p20, p40], 400)
    | some ⟨1, _⟩ => ([started, p20, p40, p60, errEvt], 500)
    | some _ => ([started, p20, p40, p60, p70, p80, errEvt], 500)
    | none => ([started, p20, p40, p60, p70, p80, done], 200)

/-- Fields of the `mintCollectionNFT` request body that its control flow
inspects (`src/controllers/mintNFT.ts`). -/
structure MintNFTBody where
  rpcEndpoint : Option String
  privateKey : Option String
  collectionMint : Option String
  metadataName : Option String
  metadataUri : Option String
deriving DecidableEq, Repr

/-- Which throwing step of `mintCollectionNFT` fails, if any: stage 0 is
the awaited `getLatestBlockhash` probe (error event + 400), stage 1 the
locally caught `getWalletKeypair` (error event + 400), stage 2 throws
between the `umi_init` and `minting` events, stage 3 after the `minting`
event (the awaited `create`); stages 2-3 reach the outer catch, which
emits `status:"error"` and returns 500. -/
def MintFail := Option (Fin 4)

/-- Progress-event trace and HTTP status of `mintCollectionNFT`.  Unlike
the other two handlers, every early-return branch emits a
`status:"error"` event before returning. -/
def mintCollectionNFT (b : MintNFTBody) (fail : MintFail)
    (errMsg : String) : List ProgressUpdate × Nat :=
  let started : ProgressUpdate :=
    ⟨.nft, .started, none, none,
     some "Starting NFT minting process", none⟩
  let p15 : ProgressUpdate :=
    ⟨.nft, .progress, some "validation", some 15,
     some "Validating input parameters", none⟩
  let err (m : String) : ProgressUpdate :=
    ⟨.nft, .error, none, none, some m, none⟩
  if ¬ truthy b.rpcEndpoint then
    ([started, p15, err "RPC endpoint is required"], 400)
  else if ¬ truthy b.privateKey then
    ([started, p15, err "Private key is required"], 400)
  else if ¬ (truthy b.collectionMint ∧ truthy b.metadataName ∧
      truthy b.metadataUri) then
    ([started, p15,
      err "Missing required fields: collectionMint, metadata.name, or metadata.uri"],
     400)
  else
    let p30 : ProgressUpdate :=
      ⟨.nft, .progress, some "connection", some 30,
       some "Initializing blockchain connection", none⟩
    let p45 : ProgressUpdate :=
      ⟨.nft, .progress, some "wallet_init", some 45,
       some "Initializing wallet", none⟩
    let p60 : ProgressUpdate :=
      ⟨.nft, .progress, some "umi_init", some 60,
       some "Initializing UMI and fetching collection", none⟩
    let p75 : ProgressUpdate :=
      ⟨.nft, .progress, some "collection_verification", some 75,
       some "Verifying collection and preparing NFT", none⟩
    let p90 : ProgressUpdate :=
      ⟨.nft, .progress, some "minting", some 90,
       some "Minting NFT on blockchain", none⟩
    let done : ProgressUpdate :=
      ⟨.nft, .completed, none, some 100,
       some "NFT minted successfully", none⟩
    match fail with
    | some ⟨0, _⟩ =>
      ([started, p15, p30,
        err "Invalid RPC endpoint or connection failed"], 400)
    | some ⟨1, _⟩ =>
      ([started, p15, p30, p45,
        err "Invalid private key format. Must be base64 encoded."], 400)
    | some ⟨2, _⟩ =>
      ([started, p15, p30, p45, p60, p75,
        err ("NFT minting failed: " ++ errMsg)], 500)
    | some _ =>
      ([started, p15, p30, p45, p60, p75, p90,
        err ("NFT minting failed: " ++ errMsg)], 500)
    | none =>
      ([started, p15, p30, p45, p60, p75, p90, done], 200)

/-- An event is terminal when its status is `completed` or `error`. -/
def isTerminal (u : ProgressUpdate) : Bool :=
  u.status = UpdStatus.completed ∨ u.status = UpdStatus.error

/-- The observability property the spec requires of every handler run:
if the trace contains a `started` event, it contains exactly one
terminal event. -/
def startedImpliesOneTerminal (es : List ProgressUpdate) : Prop :=
  (es.any (fun u => u.status = UpdStatus.started)) = true →
    (es.filter isTerminal).length = 1

/-- A world with no registered clients, empty outputs and all handles
live; base case for concrete scenarios. -/
def emptyWorld : World :=
  ⟨[], fun _ => [], fun _ => false⟩

/-- A world holding one registered client `"a"` on handle `0` whose
transport has already failed (peer gone, close not yet observed). -/
def failedWorld : World :=
  ⟨[("a", ⟨"a", 0⟩)], fun _ => [], fun _ => true⟩

/-- A world holding one live registered client `"a"` on handle `1`. -/
def oneClientWorld : World :=
  ⟨[("a", ⟨"a", 1⟩)], fun _ => [], fun _ => false⟩

/-- A world holding three live registered clients `"A"`, `"B"`, `"C"` on
handles `1`, `2`, `3`. -/
def threeClientWorld : World :=
  ⟨[("A", ⟨"A", 1⟩), ("B", ⟨"B", 2⟩), ("C", ⟨"C", 3⟩)],
   fun _ => [], fun _ => false⟩

/-- A sample progress event. -/
def evtStarted : ProgressUpdate :=
  ⟨.token, .started, none, none,
   some "Preparing token creation transaction", none⟩

/-- A second sample progress event. -/
def evtMid : ProgressUpdate :=
  ⟨.token, .progress, some "building", some 60, some "Building transaction",
   none⟩

/-- A third sample progress event. -/
def evtDone : ProgressUpdate :=
  ⟨.token, .completed, none, some 100,
   some "Transaction prepared successfully", none⟩

lemma mapGet_mapDelete_self (m : List (String × SSEClient)) (k : String) :
    mapGet (mapDelete m k) k = none := by
  induction m with
  | nil => rfl
  | cons a m ih =>
    simp only [mapDelete, ne_eq, decide_not, List.filter_cons] at ih ⊢
    by_cases h : a.1 = k
    · simp [h, ih]
    · have hd : (decide (a.1 = k)) = false := decide_eq_false h
      simp only [mapGet, List.find?_cons, hd, Bool.not_false, if_true] at ih ⊢
      exact ih

lemma mapGet_mapSet_self (m : List (String × SSEClient)) (k : String)
    (v : SSEClient) : mapGet (mapSet m k v) k = some v := by
  by_cases hany : m.any (fun p => p.1 = k) = true
  · simp only [mapSet, hany, if_pos]
    induction m with
    | nil => simp at hany
    | cons a m ih =>
      by_cases h : a.1 = k
      · simp [mapGet, h]
      · simp only [List.any_cons, h] at hany
        simp only [List.map_cons, if_neg h]
        have := ih (by simpa using hany)
        simpa [mapGet, h] using this
  · simp only [mapSet, hany, if_neg, Bool.false_eq_true, not_false_iff]
    induction m with
    | nil => simp [mapGet]
    | cons a m ih =>
      simp only [List.any_cons, Bool.or_eq_true] at hany
      push_neg at hany
      have h1 : ¬ a.1 = k := by
        intro h; exact hany.1 (by simp [h])
      have := ih (by simpa using hany.2)
      simpa [mapGet, h1] using this

lemma writeChunk_clients (w : World) (h : Nat) (s : String) :
    (writeChunk w h s).1.clients = w.clients := by
  by_cases hf : w.failed h = true <;> simp [writeChunk, hf]

lemma writeChunk_failed (w : World) (h : Nat) (s : String) :
    (writeChunk w h s).1.failed = w.failed := by
  by_cases hf : w.failed h = true <;> simp [writeChunk, hf]

lemma writeChunk_ok (w : World) (h : Nat) (s : String)
    (hf : w.failed h = false) :
    writeChunk w h s =
      (⟨w.clients,
        fun h2 => if h2 = h then w.output h2 ++ [s] else w.output h2,
        w.failed⟩, false) := by
  simp [writeChunk, hf]

lemma writeChunk_raises_iff (w : World) (h : Nat) (s : String) :
    (writeChunk w h s).2 = true ↔ w.failed h = true := by
  by_cases hf : w.failed h = true <;> simp [writeChunk, hf]

lemma sendToClient_clients (w : World) (cid : String) (e : ProgressUpdate) :
    (sendToClient w cid e).1.clients = w.clients := by
  cases hm : mapGet w.clients cid with
  | none => simp [sendToClient, hm]
  | some c => simp [sendToClient, hm, writeChunk_clients]

lemma sendToClient_failed (w : World) (cid : String) (e : ProgressUpdate) :
    (sendToClient w cid e).1.failed = w.failed := by
  cases hm : mapGet w.clients cid with
  | none => simp [sendToClient, hm]
  | some c => simp [sendToClient, hm, writeChunk_failed]

lemma sendToClient_unknown (w : World) (cid : String) (e : ProgressUpdate)
    (hm : mapGet w.clients cid = none) :
    sendToClient w cid e = (w, false) := by
  simp [sendToClient, hm]

lemma sendToClient_ok (w : World) (cid : String) (e : ProgressUpdate)
    (c : SSEClient) (hm : mapGet w.clients cid = some c)
    (hf : w.failed c.response = false) :
    sendToClient w cid e =
      (⟨w.clients,
        fun h2 => if h2 = c.response then
            w.output h2 ++ [sseFrame (stringifyProgress e)]
          else w.output h2,
        w.failed⟩, false) := by
  simp [sendToClient, hm, writeChunk_ok w c.response _ hf]

lemma broadcastGo_clients (cs : List (String × SSEClient)) (frame : String)
    (w : World) : (broadcastGo cs frame w).1.clients = w.clients := by
  induction cs generalizing w with
  | nil => rfl
  | cons a cs ih =>
    simp only [broadcastGo]
    by_cases hr : (writeChunk w a.2.response frame).2 = true
    · simp [hr, writeChunk_clients]
    · simp only [hr, if_neg, Bool.false_eq_true, not_false_iff]
      rw [ih]
      exact writeChunk_clients w a.2.response frame

lemma broadcast_clients (w : World) (e : ProgressUpdate) :
    (broadcast w e).1.clients = w.clients :=
  broadcastGo_clients w.clients _ w

lemma sendToClient_raises_iff (w : World) (cid : String)
    (e : ProgressUpdate) :
    (sendToClient w cid e).2 = true ↔
      ∃ c, mapGet w.clients cid = some c ∧ w.failed c.response = true := by
  cases hm : mapGet w.clients cid with
  | none => simp [sendToClient, hm]
  | some c =>
    simp only [sendToClient, hm, writeChunk_raises_iff]
    constructor
    · intro hf; exact ⟨c, rfl, hf⟩
    · rintro ⟨c2, hc2, hf⟩
      cases hc2
      exact hf

lemma broadcastGo_raises_iff (cs : List (String × SSEClient))
    (frame : String) (w : World) :
    (broadcastGo cs frame w).2 = true ↔
      ∃ p ∈ cs, w.failed p.2.response = true := by
  induction cs generalizing w with
  | nil => simp [broadcastGo]
  | cons a cs ih =>
    simp only [broadcastGo]
    by_cases hf : w.failed a.2.response = true
    · simp [writeChunk, hf]
    · have hw : (writeChunk w a.2.response frame).2 = false := by
        simp [writeChunk, hf]
      have hfp : (writeChunk w a.2.response frame).1.failed = w.failed :=
        writeChunk_failed w a.2.response frame
      simp only [hw, Bool.false_eq_true, if_false]
      rw [ih]
      simp only [hfp, List.mem_cons]
      constructor
      · rintro ⟨p, hp, hpf⟩; exact ⟨p, Or.inr hp, hpf⟩
      · rintro ⟨p, hp | hp, hpf⟩
        · cases hp; exact absurd hpf hf
        · exact ⟨p, hp, hpf⟩

lemma broadcast_raises_iff (w : World) (e : ProgressUpdate) :
    (broadcast w e).2 = true ↔
      ∃ p ∈ w.clients, w.failed p.2.response = true :=
  broadcastGo_raises_iff w.clients _ w

lemma filter_map_replace_nil (m : List (String × SSEClient)) (k : String)
    (v : SSEClient) (hz : ∀ p ∈ m, ¬ p.1 = k) :
    (m.map (fun p => if p.1 = k then (k, v) else p)).filter
      (fun p => p.1 = k) = [] := by
  rw [List.filter_eq_nil_iff]
  intro a ha
  rw [List.mem_map] at ha
  obtain ⟨p, hp, rfl⟩ := ha
  simp [if_neg (hz p hp), hz p hp]

lemma filter_map_replace (m : List (String × SSEClient)) (k : String)
    (v : SSEClient) (hone : m.countP (fun p => p.1 = k) ≤ 1)
    (hany : m.any (fun p => p.1 = k) = true) :
    (m.map (fun p => if p.1 = k then (k, v) else p)).filter
      (fun p => p.1 = k) = [(k, v)] := by
  induction m with
  | nil => simp at hany
  | cons a m ih =>
    by_cases h : a.1 = k
    · have hz : ∀ p ∈ m, ¬ p.1 = k := by
        intro p hp hpk
        have h1 : 1 ≤ m.countP (fun p => p.1 = k) := by
          rw [List.one_le_countP_iff]
          exact ⟨p, hp, by simp [hpk]⟩
        have h2 : m.countP (fun p => p.1 = k) + 1 ≤ 1 := by
          rw [List.countP_cons_of_pos] at hone
          · exact hone
          · simp [h]
        omega
      simp only [List.map_cons, if_pos h, List.filter_cons]
      rw [filter_map_replace_nil m k v hz]
      simp
    · have hone2 : m.countP (fun p => p.1 = k) ≤ 1 := by
        rw [List.countP_cons] at hone
        omega
      have hany2 : m.any (fun p => p.1 = k) = true := by
        simp only [List.any_cons, h] at hany
        simpa using hany
      simp only [List.map_cons, if_neg h, List.filter_cons]
      simp only [decide_eq_false h, Bool.false_eq_true, if_false]
      exact ih hone2 hany2

lemma countP_le_one_mapSet (m : List (String × SSEClient)) (k : String)
    (v : SSEClient) (hone : m.countP (fun p => p.1 = k) ≤ 1) :
    (mapSet m k v).countP (fun p => p.1 = k) ≤ 1 := by
  by_cases hany : m.any (fun p => p.1 = k) = true
  · simp only [mapSet, hany, if_pos]
    rw [List.countP_map]
    have : ∀ p : String × SSEClient,
        (fun q => decide (q.1 = k)) ((fun p => if p.1 = k then (k, v) else p) p)
          = decide (p.1 = k) := by
      intro p
      by_cases h : p.1 = k <;> simp [h]
    calc m.countP _ = m.countP (fun p => p.1 = k) := List.countP_congr
          (fun p _ => by simpa using this p)
      _ ≤ 1 := hone
  · simp only [mapSet, hany, Bool.false_eq_true, not_false_iff, if_neg]
    rw [List.countP_append]
    have hz : m.countP (fun p => p.1 = k) = 0 := by
      rw [List.countP_eq_zero]
      intro p hp
      simp only [List.any_eq_true] at hany
      push_neg at hany
      simpa using hany p hp
    simp [hz]

lemma mapSet_any (m : List (String × SSEClient)) (k : String)
    (v : SSEClient) : (mapSet m k v).any (fun p => p.1 = k) = true := by
  by_cases hany : m.any (fun p => p.1 = k) = true
  · simp only [mapSet, hany, if_pos]
    rw [List.any_eq_true] at hany ⊢
    obtain ⟨p, hp, hpk⟩ := hany
    refine ⟨(k, v), List.mem_map.mpr ⟨p, hp, ?_⟩, by simp⟩
    simp only [decide_eq_true_eq] at hpk
    simp [if_pos hpk]
  · simp [mapSet, hany]

lemma mapSet_of_any (m : List (String × SSEClient)) (k : String)
    (v : SSEClient) (hany : m.any (fun p => p.1 = k) = true) :
    mapSet m k v = m.map (fun p => if p.1 = k then (k, v) else p) := by
  simp [mapSet, hany]

lemma filter_mapSet_mapSet (m : List (String × SSEClient)) (k : String)
    (v1 v2 : SSEClient) (hone : m.countP (fun p => p.1 = k) ≤ 1) :
    (mapSet (mapSet m k v1) k v2).filter (fun p => p.1 = k) = [(k, v2)] := by
  have hany : (mapSet m k v1).any (fun p => p.1 = k) = true :=
    mapSet_any m k v1
  have hone2 : (mapSet m k v1).countP (fun p => p.1 = k) ≤ 1 :=
    countP_le_one_mapSet m k v1 hone
  rw [mapSet_of_any _ k v2 hany]
  exact filter_map_replace _ k v2 hone2 hany

lemma digitChar_isDigit (n : Nat) (h : n < 10) :
    (Nat.digitChar n).isDigit = true := by
  interval_cases n <;> decide

lemma toDigitsCore_all_digits (fuel : Nat) :
    ∀ (n : Nat) (ds : List Char), ds.all Char.isDigit = true →
      (Nat.toDigitsCore 10 fuel n ds).all Char.isDigit = true := by
  induction fuel with
  | zero => intro n ds hds; simpa [Nat.toDigitsCore] using hds
  | succ fuel ih =>
    intro n ds hds
    have hd : (Nat.digitChar (n % 10)).isDigit = true :=
      digitChar_isDigit (n % 10) (Nat.mod_lt n (by norm_num))
    have hcons : (Nat.digitChar (n % 10) :: ds).all Char.isDigit = true := by
      simp [List.all_cons, hd, hds]
    simp only [Nat.toDigitsCore]
    by_cases h : n / 10 = 0
    · simpa [h] using hcons
    · simpa [h] using ih (n / 10) (Nat.digitChar (n % 10) :: ds) hcons

lemma repr_all_digits (n : Nat) :
    (Nat.repr n).data.all Char.isDigit = true := by
  show ((Nat.toDigits 10 n).asString).data.all Char.isDigit = true
  show (Nat.toDigits 10 n).all Char.isDigit = true
  exact toDigitsCore_all_digits (n + 1) n [] rfl

lemma append_tail_fold (A J : String) :
    A ++ J ++ "\"" ++ "\x7d" ++ "\n\n" = A ++ J ++ "\"\x7d\n\n" := by
  rw [String.append_assoc (A ++ J ++ "\"") "\x7d" "\n\n",
      String.append_assoc (A ++ J) "\"" ("\x7d" ++ "\n\n")]
  rfl

/-- C1: once a registered stream's close notification has fired (the
close handler calls `removeClient` for its identifier), the identifier
is no longer present in the registry mapping and a subsequent publish
(`sendToClient`) to it is a no-op: it raises nothing, writes nothing,
and leaves the world unchanged. -/
theorem cleanup_on_close (w : World) (clientId : String)
    (e : ProgressUpdate) :
    mapGet (sseOnClose w clientId).clients clientId = none ∧
    sendToClient (sseOnClose w clientId) clientId e =
      (sseOnClose w clientId, false) := by
  have hn : mapGet (sseOnClose w clientId).clients clientId = none :=
    mapGet_mapDelete_self w.clients clientId
  exact ⟨hn, sendToClient_unknown _ _ _ hn⟩

/-- C2, claim as stated refuted: in a world with one registered client
whose transport has already failed, `sendToClient` raises to its caller
(second component `true`): the write failure is not swallowed inside the
registry, since `sendToClient` has no exception handling around the
write. -/
theorem publish_raises_on_failed_write :
    (sendToClient failedWorld "a" evtStarted).2 = true := by decide

/-- C2 amended: `sendToClient` and `broadcast` contain no exception
handling; a publish raises to its caller exactly when the write to a
registered target stream fails.  `sendToClient` raises iff the
identifier resolves to a registered client whose transport has failed,
and `broadcast` raises iff some registered client's transport has
failed; with no such failed target (in particular for an unregistered
identifier) nothing raises. -/
theorem publish_raise_conditions (w : World) (cid : String)
    (e : ProgressUpdate) :
    ((sendToClient w cid e).2 = true ↔
      ∃ c, mapGet w.clients cid = some c ∧ w.failed c.response = true) ∧
    ((broadcast w e).2 = true ↔
      ∃ p ∈ w.clients, w.failed p.2.response = true) :=
  ⟨sendToClient_raises_iff w cid e, broadcast_raises_iff w e⟩

/-- C4: publishing to an identifier with no registered stream does not
raise and is a complete no-op: the result is the unchanged world (every
registration and every stream output is untouched) with no exception. -/
theorem publish_unknown_noop (w : World) (cid : String)
    (e : ProgressUpdate) (hm : mapGet w.clients cid = none) :
    sendToClient w cid e = (w, false) :=
  sendToClient_unknown w cid e hm

/-- Witness for C4 at a concrete world: `"unknown"` is absent from a
registry holding only `"a"`, and publishing to it returns the world
unchanged without raising. -/
theorem publish_unknown_noop_witness :
    mapGet oneClientWorld.clients "unknown" = none ∧
    sendToClient oneClientWorld "unknown" evtStarted =
      (oneClientWorld, false) :=
  ⟨by decide, publish_unknown_noop oneClientWorld "unknown" evtStarted
    (by decide)⟩

/-- C10: `sendToClient` and `broadcast` never change the registry
mapping: the set of registered identifiers and their handles after a
publish or broadcast is exactly the one before, whether or not any
write failed; in particular a failed write never removes the stale
registration. -/
theorem send_broadcast_preserve_registry (w : World) (cid : String)
    (e : ProgressUpdate) :
    (sendToClient w cid e).1.clients = w.clients ∧
    (broadcast w e).1.clients = w.clients :=
  ⟨sendToClient_clients w cid e, broadcast_clients w e⟩

/-- C3: registering an identifier twice (registry invariant: at most one
pre-existing entry for it) leaves exactly one registry entry for it,
holding the second client; a subsequent publish to that identifier looks
up the second client, raises nothing, appends exactly one framed event
to the second handle's output and leaves every other handle's output
unchanged (last-registered wins). -/
theorem replace_on_register (w : World) (c1 c2 : SSEClient)
    (e : ProgressUpdate) (hid : c1.id = c2.id)
    (hone : w.clients.countP (fun p => p.1 = c2.id) ≤ 1)
    (hf : w.failed c2.response = false) :
    ((addClient (addClient w c1) c2).clients.filter
        (fun p => p.1 = c2.id) = [(c2.id, c2)]) ∧
    mapGet (addClient (addClient w c1) c2).clients c2.id = some c2 ∧
    (sendToClient (addClient (addClient w c1) c2) c2.id e).2 = false ∧
    ((sendToClient (addClient (addClient w c1) c2) c2.id e).1.output
        c2.response =
      (addClient (addClient w c1) c2).output c2.response ++
        [sseFrame (stringifyProgress e)]) ∧
    (∀ h, h ≠ c2.response →
      (sendToClient (addClient (addClient w c1) c2) c2.id e).1.output h =
        (addClient (addClient w c1) c2).output h) := by
  obtain ⟨id1, r1⟩ := c1
  obtain ⟨id2, r2⟩ := c2
  dsimp only at hid hone hf ⊢
  subst hid
  have hm : mapGet (addClient (addClient w ⟨id1, r1⟩) ⟨id1, r2⟩).clients
      id1 = some ⟨id1, r2⟩ :=
    mapGet_mapSet_self (mapSet w.clients id1 ⟨id1, r1⟩) id1 ⟨id1, r2⟩
  have hfil : (addClient (addClient w ⟨id1, r1⟩) ⟨id1, r2⟩).clients.filter
      (fun p => p.1 = id1) = [(id1, ⟨id1, r2⟩)] :=
    filter_mapSet_mapSet w.clients id1 ⟨id1, r1⟩ ⟨id1, r2⟩ hone
  have hsend := sendToClient_ok (addClient (addClient w ⟨id1, r1⟩)
    ⟨id1, r2⟩) id1 e ⟨id1, r2⟩ hm hf
  refine ⟨hfil, hm, ?_, ?_, ?_⟩
  · rw [hsend]
  · rw [hsend]
    simp
  · intro h hh
    rw [hsend]
    simp [if_neg hh]

/-- Witness for C3: starting from the empty registry, register `"X"` on
handle 1 and then on handle 2; exactly the entry for handle 2 remains,
the publish targets handle 2, and handle 5 receives nothing. -/
theorem replace_on_register_witness :
    (SSEClient.mk "X" 1).id = (SSEClient.mk "X" 2).id ∧
    emptyWorld.clients.countP (fun p => p.1 = "X") ≤ 1 ∧
    emptyWorld.failed 2 = false ∧
    ((addClient (addClient emptyWorld ⟨"X", 1⟩) ⟨"X", 2⟩).clients.filter
        (fun p => p.1 = "X") = [("X", ⟨"X", 2⟩)]) ∧
    ((sendToClient (addClient (addClient emptyWorld ⟨"X", 1⟩) ⟨"X", 2⟩)
        "X" evtStarted).1.output 5 =
      (addClient (addClient emptyWorld ⟨"X", 1⟩) ⟨"X", 2⟩).output 5) :=
  ⟨rfl, by decide, rfl,
   (replace_on_register emptyWorld ⟨"X", 1⟩ ⟨"X", 2⟩ evtStarted rfl
     (by decide) rfl).1,
   (replace_on_register emptyWorld ⟨"X", 1⟩ ⟨"X", 2⟩ evtStarted rfl
     (by decide) rfl).2.2.2.2 5 (by decide)⟩

/-- C5: with the registry holding exactly the registrations A, B, C on
pairwise distinct live handles, `broadcast` raises nothing, leaves the
registry unchanged, appends exactly one framed copy of the event to each
of the three handles' outputs, and writes to no other handle. -/
theorem broadcast_reaches_all (w : World) (a b c : String)
    (ca cb cc : SSEClient) (e : ProgressUpdate)
    (hw : w.clients = [(a, ca), (b, cb), (c, cc)])
    (hfa : w.failed ca.response = false)
    (hfb : w.failed cb.response = false)
    (hfc : w.failed cc.response = false)
    (hab : ca.response ≠ cb.response)
    (hac : ca.response ≠ cc.response)
    (hbc : cb.response ≠ cc.response) :
    (broadcast w e).2 = false ∧
    (broadcast w e).1.clients = w.clients ∧
    ((broadcast w e).1.output ca.response =
      w.output ca.response ++ [sseFrame (stringifyProgress e)]) ∧
    ((broadcast w e).1.output cb.response =
      w.output cb.response ++ [sseFrame (stringifyProgress e)]) ∧
    ((broadcast w e).1.output cc.response =
      w.output cc.response ++ [sseFrame (stringifyProgress e)]) ∧
    (∀ h, h ≠ ca.response → h ≠ cb.response → h ≠ cc.response →
      (broadcast w e).1.output h = w.output h) := by
  obtain ⟨cl, out, fl⟩ := w
  dsimp only at hw hfa hfb hfc ⊢
  subst hw
  refine ⟨?_, ?_, ?_, ?_, ?_, ?_⟩
  · simp [broadcast, broadcastGo, writeChunk, hfa, hfb, hfc]
  · simp [broadcast, broadcastGo, writeChunk, hfa, hfb, hfc]
  · simp [broadcast, broadcastGo, writeChunk, hfa, hfb, hfc, hab, hac]
  · simp [broadcast, broadcastGo, writeChunk, hfa, hfb, hfc, hbc,
      Ne.symm hab]
  · simp [broadcast, broadcastGo, writeChunk, hfa, hfb, hfc,
      Ne.symm hac, Ne.symm hbc]
  · intro h h1 h2 h3
    simp [broadcast, broadcastGo, writeChunk, hfa, hfb, hfc,
      Ne.symm h1, Ne.symm h2, Ne.symm h3, h1, h2, h3]

/-- Witness for C5 at a concrete world with clients A, B, C on handles
1, 2, 3: all three handle outputs receive the frame and handle 7
receives nothing. -/
theorem broadcast_reaches_all_witness :
    threeClientWorld.clients =
      [("A", ⟨"A", 1⟩), ("B", ⟨"B", 2⟩), ("C", ⟨"C", 3⟩)] ∧
    threeClientWorld.failed 1 = false ∧
    (broadcast threeClientWorld evtStarted).2 = false ∧
    ((broadcast threeClientWorld evtStarted).1.output 2 =
      threeClientWorld.output 2 ++
        [sseFrame (stringifyProgress evtStarted)]) ∧
    (broadcast threeClientWorld evtStarted).1.output 7 =
      threeClientWorld.output 7 :=
  ⟨rfl, rfl,
   (broadcast_reaches_all threeClientWorld "A" "B" "C" ⟨"A", 1⟩ ⟨"B", 2⟩
     ⟨"C", 3⟩ evtStarted rfl rfl rfl rfl (by decide) (by decide)
     (by decide)).1,
   (broadcast_reaches_all threeClientWorld "A" "B" "C" ⟨"A", 1⟩ ⟨"B", 2⟩
     ⟨"C", 3⟩ evtStarted rfl rfl rfl rfl (by decide) (by decide)
     (by decide)).2.2.2.1,
   (broadcast_reaches_all threeClientWorld "A" "B" "C" ⟨"A", 1⟩ ⟨"B", 2⟩
     ⟨"C", 3⟩ evtStarted rfl rfl rfl rfl (by decide) (by decide)
     (by decide)).2.2.2.2.2 7 (by decide) (by decide) (by decide)⟩

/-- C8: publishing `e1`, `e2`, `e3` in that order through
`sendProgressUpdate` to a single registered identifier with a live
handle appends the three frames to that stream's output in exactly that
call order, raising nothing. -/
theorem per_identifier_order (w : World) (cid : String) (c : SSEClient)
    (e1 e2 e3 : ProgressUpdate)
    (hm : mapGet w.clients cid = some c)
    (hf : w.failed c.response = false) :
    ((sendProgressUpdate
        (sendProgressUpdate (sendProgressUpdate w cid e1).1 cid e2).1
        cid e3).1.output c.response =
      w.output c.response ++
        [sseFrame (stringifyProgress e1), sseFrame (stringifyProgress e2),
         sseFrame (stringifyProgress e3)]) ∧
    (sendProgressUpdate
        (sendProgressUpdate (sendProgressUpdate w cid e1).1 cid e2).1
        cid e3).2 = false := by
  obtain ⟨cl, out, fl⟩ := w
  dsimp only at hm hf ⊢
  simp only [sendProgressUpdate]
  rw [sendToClient_ok ⟨cl, out, fl⟩ cid e1 c hm hf]
  rw [sendToClient_ok ⟨cl,
    fun h2 => if h2 = c.response then
        out h2 ++ [sseFrame (stringifyProgress e1)]
      else out h2, fl⟩ cid e2 c hm hf]
  rw [sendToClient_ok ⟨cl,
    fun h2 => if h2 = c.response then
        (if h2 = c.response then
            out h2 ++ [sseFrame (stringifyProgress e1)]
          else out h2) ++ [sseFrame (stringifyProgress e2)]
      else
        (if h2 = c.response then
            out h2 ++ [sseFrame (stringifyProgress e1)]
          else out h2), fl⟩ cid e3 c hm hf]
  simp

/-- Witness for C8: the three sample events published to `"a"` in
`oneClientWorld` land on handle 1 in call order. -/
theorem per_identifier_order_witness :
    mapGet oneClientWorld.clients "a" = some ⟨"a", 1⟩ ∧
    oneClientWorld.failed 1 = false ∧
    ((sendProgressUpdate
        (sendProgressUpdate
          (sendProgressUpdate oneClientWorld "a" evtStarted).1
          "a" evtMid).1 "a" evtDone).1.output 1 =
      oneClientWorld.output 1 ++
        [sseFrame (stringifyProgress evtStarted),
         sseFrame (stringifyProgress evtMid),
         sseFrame (stringifyProgress evtDone)]) :=
  ⟨by decide, rfl,
   (per_identifier_order oneClientWorld "a" ⟨"a", 1⟩ evtStarted evtMid
     evtDone (by decide) rfl).1⟩

/-- C6: on a new streaming connection the middleware sets exactly the
headers `Content-Type: text/event-stream`, `Cache-Control: no-cache`
and `Connection: keep-alive`, in that order, and flushes them before the
first body write; the first body frame is exactly
`data: \x7b"type":"connected","clientId":"<resolved id>"\x7d` followed by two
newlines; and each subsequently published event is written as exactly
one frame `data: <JSON-encoded ProgressUpdate>` followed by two
newlines. -/
theorem sse_response_format (param : Option String) (now : Nat)
    (w : World) (cid : String) (c : SSEClient) (u : ProgressUpdate)
    (hm : mapGet w.clients cid = some c)
    (hf : w.failed c.response = false) :
    sseMiddlewareTrace param now =
      [ResAction.setHeader "Content-Type" "text/event-stream",
       ResAction.setHeader "Cache-Control" "no-cache",
       ResAction.setHeader "Connection" "keep-alive",
       ResAction.flushHeaders,
       ResAction.write
         ("data: \x7b\"type\":\"connected\",\"clientId\":\""
           ++ String.join
               ((resolveClientId param now).data.map jsonEscapeChar)
           ++ "\"\x7d\n\n")] ∧
    (sendToClient w cid u).2 = false ∧
    (sendToClient w cid u).1.output c.response =
      w.output c.response ++
        ["data: " ++ stringifyProgress u ++ "\n\n"] := by
  have hframe : sseFrame (connectedJson (resolveClientId param now)) =
      "data: \x7b\"type\":\"connected\",\"clientId\":\""
        ++ String.join ((resolveClientId param now).data.map jsonEscapeChar)
        ++ "\"\x7d\n\n" := by
    simp only [sseFrame, connectedJson, jsonString]
    simp [← String.append_assoc]
    exact append_tail_fold "data: \x7b\"type\":\"connected\",\"clientId\":\""
      (String.join ((resolveClientId param now).data.map jsonEscapeChar))
  refine ⟨?_, ?_, ?_⟩
  · simp only [sseMiddlewareTrace]
    rw [hframe]
  · rw [sendToClient_ok w cid u c hm hf]
  · rw [sendToClient_ok w cid u c hm hf]
    simp [sseFrame]

/-- Witness for C6: connecting to `/events/abc` produces the three
headers, the flush, and the exact first frame for identifier `abc`; a
subsequent publish to a registered client appends one framed event. -/
theorem sse_response_format_witness :
    mapGet oneClientWorld.clients "a" = some ⟨"a", 1⟩ ∧
    oneClientWorld.failed 1 = false ∧
    sseMiddlewareTrace (some "abc") 0 =
      [ResAction.setHeader "Content-Type" "text/event-stream",
       ResAction.setHeader "Cache-Control" "no-cache",
       ResAction.setHeader "Connection" "keep-alive",
       ResAction.flushHeaders,
       ResAction.write
         "data: \x7b\"type\":\"connected\",\"clientId\":\"abc\"\x7d\n\n"] ∧
    (sendToClient oneClientWorld "a" evtStarted).1.output 1 =
      oneClientWorld.output 1 ++
        ["data: " ++ stringifyProgress evtStarted ++ "\n\n"] :=
  ⟨by decide, rfl,
   ((sse_response_format (some "abc") 0 oneClientWorld "a" ⟨"a", 1⟩
     evtStarted (by decide) rfl).1).trans (by decide),
   (sse_response_format (some "abc") 0 oneClientWorld "a" ⟨"a", 1⟩
     evtStarted (by decide) rfl).2.2⟩

/-- C7 (code bug): a `createToken` request with a missing required field
(here `name` absent) emits the `status:"started"` progress event and
then returns 400 from the validation branch without ever emitting a
terminal (`completed` or `error`) event, violating the
started-implies-one-terminal property the spec requires; the
`deployCollection` validation branch (here `privateKey` absent) has the
same defect. -/
theorem started_without_terminal_on_validation :
    (createToken ⟨none, some "https://arweave.net/x", some "SYM",
        some "wallet"⟩ none "").1 =
      [⟨.token, .started, none, none,
        some "Preparing token creation transaction", none⟩] ∧
    (createToken ⟨none, some "https://arweave.net/x", some "SYM",
        some "wallet"⟩ none "").2 = 400 ∧
    ¬ startedImpliesOneTerminal
      (createToken ⟨none, some "https://arweave.net/x", some "SYM",
        some "wallet"⟩ none "").1 ∧
    ¬ startedImpliesOneTerminal
      (deployCollection ⟨some "Col", some "https://arweave.net/y",
        none⟩ none "").1 := by
  refine ⟨by decide, by decide, ?_, ?_⟩
  · intro hP
    exact absurd (hP (by decide)) (by decide)
  · intro hP
    exact absurd (hP (by decide)) (by decide)

/-- C9: connecting without a client identifier (route parameter absent
or the empty string) synthesizes the identifier
`Date.now().toString()`, a decimal-digit string; the middleware
registers the stream under it, writes a `connected` frame carrying it,
and a subsequent `sendProgressUpdate` with exactly that string appends
a frame to the same stream, raising nothing. -/
theorem timestamp_fallback (w : World) (param : Option String)
    (now : Nat) (res : Nat) (u : ProgressUpdate)
    (hp : param = none ∨ param = some "")
    (hf : w.failed res = false) :
    resolveClientId param now = Nat.repr now ∧
    (Nat.repr now).data.all Char.isDigit = true ∧
    (sseConnect w param now res).2 = false ∧
    (mapGet (sseConnect w param now res).1.clients (Nat.repr now) =
      some ⟨Nat.repr now, res⟩) ∧
    ((sseConnect w param now res).1.output res =
      w.output res ++ [sseFrame (connectedJson (Nat.repr now))]) ∧
    ((sendProgressUpdate (sseConnect w param now res).1 (Nat.repr now)
        u).2 = false) ∧
    ((sendProgressUpdate (sseConnect w param now res).1 (Nat.repr now)
        u).1.output res =
      (sseConnect w param now res).1.output res ++
        [sseFrame (stringifyProgress u)]) := by
  obtain ⟨cl, out, fl⟩ := w
  have hcid : resolveClientId param now = Nat.repr now := by
    rcases hp with h | h <;> simp [resolveClientId, h]
  dsimp only at hf ⊢
  have hsc : sseConnect ⟨cl, out, fl⟩ param now res =
      (⟨mapSet cl (Nat.repr now) ⟨Nat.repr now, res⟩,
        fun h2 => if h2 = res then
            out h2 ++ [sseFrame (connectedJson (Nat.repr now))]
          else out h2, fl⟩, false) := by
    simp only [sseConnect, hcid, addClient]
    exact writeChunk_ok ⟨mapSet cl (Nat.repr now) ⟨Nat.repr now, res⟩,
      out, fl⟩ res (sseFrame (connectedJson (Nat.repr now))) hf
  have hm2 : mapGet (mapSet cl (Nat.repr now) ⟨Nat.repr now, res⟩)
      (Nat.repr now) = some ⟨Nat.repr now, res⟩ :=
    mapGet_mapSet_self cl (Nat.repr now) ⟨Nat.repr now, res⟩
  have hsend := sendToClient_ok
    ⟨mapSet cl (Nat.repr now) ⟨Nat.repr now, res⟩,
     fun h2 => if h2 = res then
         out h2 ++ [sseFrame (connectedJson (Nat.repr now))]
       else out h2, fl⟩ (Nat.repr now) u ⟨Nat.repr now, res⟩ hm2 hf
  refine ⟨hcid, repr_all_digits now, ?_, ?_, ?_, ?_, ?_⟩
  · rw [hsc]
  · rw [hsc]
    exact hm2
  · rw [hsc]
    simp
  · simp only [sendProgressUpdate]
    rw [hsc]
    rw [hsend]
  · simp only [sendProgressUpdate]
    rw [hsc]
    rw [hsend]
    simp

/-- Witness for C9: connecting to `emptyWorld` with an absent parameter
at timestamp 42 on handle 1 registers identifier `"42"`, a digit
string, and a publish to `"42"` reaches handle 1. -/
theorem timestamp_fallback_witness :
    ((none : Option String) = none ∨ (none : Option String) = some "") ∧
    emptyWorld.failed 1 = false ∧
    resolveClientId none 42 = Nat.repr 42 ∧
    (Nat.repr 42).data.all Char.isDigit = true ∧
    (mapGet (sseConnect emptyWorld none 42 1).1.clients (Nat.repr 42) =
      some ⟨Nat.repr 42, 1⟩) ∧
    ((sendProgressUpdate (sseConnect emptyWorld none 42 1).1
        (Nat.repr 42) evtStarted).1.output 1 =
      (sseConnect emptyWorld none 42 1).1.output 1 ++
        [sseFrame (stringifyProgress evtStarted)]) :=
  ⟨Or.inl rfl, rfl,
   (timestamp_fallback emptyWorld none 42 1 evtStarted (Or.inl rfl)
     rfl).1,
   (timestamp_fallback emptyWorld none 42 1 evtStarted (Or.inl rfl)
     rfl).2.1,
   (timestamp_fallback emptyWorld none 42 1 evtStarted (Or.inl rfl)
     rfl).2.2.2.1,
   (timestamp_fallback emptyWorld none 42 1 evtStarted (Or.inl rfl)
     rfl).2.2.2.2.2.2⟩

end MonkeypoxSSE
